import Mathlib

/-!
Shallow embedding of `haystack/retriever/tfidf.py` (class `TfidfRetriever`).

Modelling conventions:
* Python strings are Lean `String`; the string operations the source uses
  (`str.split(sep)`, `str.strip()`, `str.lower()`, `" ".join(...)`) are given
  executable structural-recursive models (`pySplit`, `pyStrip`, `pyJoin`) so
  that every definition evaluates inside the kernel.
* The SQL `Document` rows fetched by `db.session.query(Document).all()` are an
  input list of `Document` values (opaque integer id plus text body).
* `pandas.DataFrame.from_dict(paragraphs)` is the row list `List Row`; on an
  empty paragraph list the frame has no columns, so `self.df["text"]` raises
  `KeyError("text")` — modelled by the error branch of `fit`.
* sklearn's `TfidfVectorizer.fit_transform` raises `ValueError` when the fitted
  vocabulary is empty; its tokenizer (`lowercase=True`,
  `token_pattern=r"(?u)\b\w\w+\b"`, unigrams) is modelled over ASCII by
  `tokenize`.  The numeric content of the tf-idf matrix and of
  `tfidf_matrix.dot(question_vector.T)` is abstracted as a score assignment
  `scores : Nat → ℚ` (one score per paragraph row); every ranking, filtering
  and truncation theorem below is proved for all score assignments.
* Python's `sorted(..., key=lambda tup: tup[1], reverse=True)` is a stable
  descending sort; `pySortDesc` realizes it as a left fold of a stable
  insertion (`insertRanked` places the new element after every earlier element
  whose key is ≥ its own, exactly the stable descending order).
* `df.loc[keys]` with the frame's `RangeIndex` labels is positional lookup in
  the given key order; `df[df.document_id.isin(ids)]` is a filter;
  `df[:top_k]` is Python slice semantics, modelled by `pySlice`.
-/

namespace Haystack

/-- A row of the external `Document` table: stable id and raw text body. -/
structure Document where
  id : ℕ
  text : String
deriving DecidableEq

/-- The `Paragraph` namedtuple: fields `paragraph_id`, `document_id`, `text`;
the source stores the text as the one-element tuple `(p,)`, modelled as a
one-element list. -/
structure Paragraph where
  paragraph_id : ℕ
  document_id : ℕ
  text : List String
deriving DecidableEq

/-- Characters removed by Python `str.strip()` with no argument. -/
def isPySpace (c : Char) : Bool :=
  c = ' ' || c = '\t' || c = '\n' || c = '\r' || c = '\x0b' || c = '\x0c'

/-- Python `s.strip()`: drop leading and trailing whitespace. -/
def pyStrip (s : String) : String :=
  String.mk (((s.data.dropWhile isPySpace).reverse.dropWhile isPySpace).reverse)

/-- Left-to-right scan behind `pySplit`: cut whenever the (non-empty)
separator is a prefix of the remaining input.  Fuel-based structural recursion
so the kernel can evaluate it; the initial fuel `length + 1` always suffices
because every step consumes at least one character. -/
def splitSepFuel (sep : List Char) : ℕ → List Char → List Char → List (List Char)
  | 0, rest, cur => [cur.reverse ++ rest]
  | _ + 1, [], cur => [cur.reverse]
  | fuel + 1, c :: cs, cur =>
    if sep.isPrefixOf (c :: cs) then
      cur.reverse :: splitSepFuel sep fuel (List.drop (sep.length - 1) cs) []
    else
      splitSepFuel sep fuel cs (c :: cur)

/-- Python `s.split(sep)` for a non-empty separator: non-overlapping
left-to-right splitting on the exact separator string. -/
def pySplit (sep : String) (s : String) : List String :=
  (splitSepFuel sep.data (s.data.length + 1) s.data []).map String.mk

/-- Python `sep.join(l)`. -/
def pyJoin (sep : String) : List String → String
  | [] => ""
  | [x] => x
  | x :: y :: xs => x ++ sep ++ pyJoin sep (y :: xs)

/-- One document's kept units, as in the loop body of `_get_all_paragraphs`:
`doc.text.split("\n\n")` keeping the units `p` with `p.strip()` non-empty.
The kept unit itself is NOT stripped. -/
def segmentDoc (d : Document) : List String :=
  (pySplit "\n\n" d.text).filter fun p => pyStrip p != ""

/-- The inner loop of `_get_all_paragraphs`: wrap each kept unit `p` of one
document as `Paragraph(document_id=doc.id, paragraph_id=p_id, text=(p,))`,
incrementing the running counter once per emitted paragraph. -/
def attachIds (did : ℕ) : ℕ → List String → List Paragraph
  | _, [] => []
  | pid, u :: us => ⟨pid, did, [u]⟩ :: attachIds did (pid + 1) us

/-- The outer loop of `_get_all_paragraphs` over all documents, threading the
paragraph-id counter `p_id` across documents. -/
def getAllParagraphsAux : List Document → ℕ → List Paragraph
  | [], _ => []
  | d :: ds, pid =>
    attachIds d.id pid (segmentDoc d) ++ getAllParagraphsAux ds (pid + (segmentDoc d).length)

/-- `TfidfRetriever._get_all_paragraphs`, with the document table as input. -/
def getAllParagraphs (docs : List Document) : List Paragraph :=
  getAllParagraphsAux docs 0

/-- A `\w` word character of the vectorizer's token pattern (ASCII model). -/
def isWordChar (c : Char) : Bool := c.isAlphanum || c = '_'

/-- Maximal runs of word characters of a character list (accumulator holds the
current run reversed). -/
def wordRunsAux : List Char → List Char → List (List Char)
  | [], cur => if cur.isEmpty then [] else [cur.reverse]
  | c :: cs, cur =>
    if isWordChar c then wordRunsAux cs (c :: cur)
    else if cur.isEmpty then wordRunsAux cs []
    else cur.reverse :: wordRunsAux cs []

/-- The vectorizer's analyzer: lowercase, then the tokens matched by
`(?u)\b\w\w+\b`, i.e. the maximal word-character runs of length at least 2. -/
def tokenize (s : String) : List String :=
  ((wordRunsAux (s.data.map Char.toLower) []).filter fun r => 2 ≤ r.length).map String.mk

/-- A materialized row of `self.df` after `fit`: columns `paragraph_id`,
`document_id`, `text` (the text column rewritten by `" ".join`). -/
structure Row where
  paragraph_id : ℕ
  document_id : ℕ
  text : String
deriving DecidableEq

/-- The Python exceptions the fit path can raise. -/
inductive PyError where
  | keyError : String → PyError
  | valueError : String → PyError
deriving DecidableEq

/-- The dataframe built by `fit`: one row per paragraph, `text` column mapped
through `" ".join` (identity on the one-element tuples the segmenter stores). -/
def fitRows (paragraphs : List Paragraph) : List Row :=
  paragraphs.map fun p => ⟨p.paragraph_id, p.document_id, pyJoin " " p.text⟩

/-- Body of `TfidfRetriever.fit`: build the dataframe, rewrite its text
column, and fit the vectorizer.  On an empty paragraph list the frame has no
`text` column (`KeyError`); a corpus with no token at all makes the vectorizer
raise `ValueError` (empty vocabulary).  On success the resulting state is the
row list (the numeric tf-idf matrix is abstracted away). -/
def fit (paragraphs : List Paragraph) : Except PyError (List Row) :=
  if paragraphs.isEmpty then .error (.keyError "text")
  else
    let rows := fitRows paragraphs
    if ((rows.map fun row => tokenize row.text).flatten).isEmpty then
      .error (.valueError "empty vocabulary")
    else
      .ok rows

/-- The fitted state of a `TfidfRetriever` instance: the paragraph list stored
by `__init__` and the dataframe built by `fit`. -/
structure TfidfRetriever where
  paragraphs : List Paragraph
  df : List Row
deriving DecidableEq

/-- `TfidfRetriever.__init__`: derive the paragraphs from the current document
table and immediately call `fit`; an exception in `fit` propagates and no
instance is produced. -/
def construct (docs : List Document) : Except PyError TfidfRetriever :=
  let paragraphs := getAllParagraphs docs
  (fit paragraphs).map fun rows => ⟨paragraphs, rows⟩

/-- Calling the `fit` method again on an existing instance: it rebuilds
`self.df` and the matrix from `self.paragraphs` (the list captured at
construction time) — it does not re-query the document table. -/
def TfidfRetriever.refit (r : TfidfRetriever) : Except PyError TfidfRetriever :=
  (fit r.paragraphs).map fun rows => { r with df := rows }

/-- The ordering realized by `sorted(idx_scores, key=lambda tup: tup[1],
reverse=True)` on the distinct-index enumeration: score strictly greater, or
equal score and original (paragraph) index smaller. -/
def RankRel (a b : ℕ × ℚ) : Prop := b.2 < a.2 ∨ (a.2 = b.2 ∧ a.1 < b.1)

/-- Stable descending insertion: the new element goes after every element
already placed whose score is at least its own. -/
def insertRanked (x : ℕ × ℚ) : List (ℕ × ℚ) → List (ℕ × ℚ)
  | [] => [x]
  | y :: ys => if x.2 ≤ y.2 then y :: insertRanked x ys else x :: y :: ys

/-- Python's stable `sorted(..., reverse=True)` on (index, score) pairs,
realized as a left fold of stable insertions. -/
def pySortDesc (l : List (ℕ × ℚ)) : List (ℕ × ℚ) :=
  l.foldl (fun acc x => insertRanked x acc) []

/-- `TfidfRetriever._calc_scores`: enumerate the per-paragraph scores and sort
them by score descending (the `OrderedDict` keeps exactly this key order; its
keys are distinct by construction).  `n` is the number of dataframe rows and
`scores` abstracts the tf-idf matrix–query dot products. -/
def calcScores (n : ℕ) (scores : ℕ → ℚ) : List (ℕ × ℚ) :=
  pySortDesc ((List.range n).map fun i => (i, scores i))

/-- `self.df.loc[indices_and_scores.keys()]`: the dataframe rows in ranked
order (row labels are the positional `RangeIndex`). -/
def rankedRows (r : TfidfRetriever) (scores : ℕ → ℚ) : List Row :=
  (calcScores r.df.length scores).filterMap fun p => r.df[p.1]?

/-- The ranked rows paired with the scores that ranked them: for each entry of
`_calc_scores` in ranked order, the `df.loc` row at its index together with its
score.  This is the row-level view of the ranking that C8 speaks about. -/
def rankedWithScores (r : TfidfRetriever) (scores : ℕ → ℚ) : List (Row × ℚ) :=
  (calcScores r.df.length scores).filterMap fun p =>
    (r.df[p.1]?).map fun row => (row, p.2)

/-- Python slice `l[:k]` for an integer `k` (negative `k` counts from the
end; the length clamp is implicit in `take`). -/
def pySlice (k : ℤ) (l : List α) : List α :=
  l.take (if 0 ≤ k then k.toNat else ((l.length : ℤ) + k).toNat)

/-- The rows surviving rank, candidate filter and `[:top_k]` in `retrieve`:
the filter runs only when `candidate_doc_ids` is truthy (non-empty). -/
def selectedRows (r : TfidfRetriever) (scores : ℕ → ℚ) (cand : List ℕ) (topK : ℤ) :
    List Row :=
  let ranked := rankedRows r scores
  let filtered :=
    if cand.isEmpty then ranked
    else ranked.filter fun row => cand.contains row.document_id
  pySlice topK filtered

/-- The metadata record `{"document_id": ..., "paragraph_id": ...}` built per
returned row. -/
structure RetMeta where
  document_id : ℕ
  paragraph_id : ℕ
deriving DecidableEq

/-- `TfidfRetriever.retrieve`: rank, filter, truncate, and return the parallel
passage and metadata lists; the second component of the result models the
`logger.info` diagnostic output, emitted only when `verbose` is true. -/
def retrieve (r : TfidfRetriever) (scores : ℕ → ℚ) (cand : List ℕ) (topK : ℤ)
    (verbose : Bool) : (List String × List RetMeta) × List String :=
  let sel := selectedRows r scores cand topK
  let log :=
    if verbose then ["Identified " ++ toString sel.length ++ " candidates via retriever"]
    else []
  ((sel.map Row.text, sel.map fun row => ⟨row.document_id, row.paragraph_id⟩), log)

/-- A one-document table used as concrete witness input. -/
def docsOne : List Document := [⟨0, "hello world"⟩]

/-- A changed state of the same document table (same id, new text). -/
def docsTwo : List Document := [⟨0, "goodbye moon"⟩]

/-- The retriever state `construct docsOne` produces. -/
def retrOne : TfidfRetriever :=
  ⟨[⟨0, 0, ["hello world"]⟩], [⟨0, 0, "hello world"⟩]⟩

/-! ### Helper lemmas about the segmenter -/

theorem attachIds_length (did : ℕ) (pid : ℕ) (us : List String) :
    (attachIds did pid us).length = us.length := by
  induction us generalizing pid with
  | nil => rfl
  | cons u us ih => simp [attachIds, ih]

theorem attachIds_map_pid (did : ℕ) (pid : ℕ) (us : List String) :
    (attachIds did pid us).map Paragraph.paragraph_id = List.range' pid us.length := by
  induction us generalizing pid with
  | nil => rfl
  | cons u us ih => simp [attachIds, ih, List.range'_succ]

theorem attachIds_map_text (did : ℕ) (pid : ℕ) (us : List String) :
    (attachIds did pid us).map Paragraph.text = us.map fun u => [u] := by
  induction us generalizing pid with
  | nil => rfl
  | cons u us ih => simp [attachIds, ih]

theorem attachIds_map_did (did : ℕ) (pid : ℕ) (us : List String) :
    (attachIds did pid us).map Paragraph.document_id = us.map fun _ => did := by
  induction us generalizing pid with
  | nil => rfl
  | cons u us ih => simp [attachIds, ih]

theorem getAllParagraphsAux_map_pid (ds : List Document) (pid : ℕ) :
    (getAllParagraphsAux ds pid).map Paragraph.paragraph_id
      = List.range' pid (getAllParagraphsAux ds pid).length := by
  induction ds generalizing pid with
  | nil => rfl
  | cons d ds ih =>
    simp only [getAllParagraphsAux, List.map_append, List.length_append,
      attachIds_map_pid, attachIds_length, ih]
    rw [List.range'_append_1 pid (segmentDoc d).length
      (getAllParagraphsAux ds (pid + (segmentDoc d).length)).length, Nat.add_comm]

theorem getAllParagraphsAux_map_text (ds : List Document) (pid : ℕ) :
    (getAllParagraphsAux ds pid).map Paragraph.text
      = ((ds.map segmentDoc).flatten).map fun u => [u] := by
  induction ds generalizing pid with
  | nil => rfl
  | cons d ds ih =>
    simp [getAllParagraphsAux, attachIds_map_text, ih]

/-! ### Helper lemmas about the stable descending sort -/

theorem mem_insertRanked (x y : ℕ × ℚ) (l : List (ℕ × ℚ)) :
    y ∈ insertRanked x l ↔ y = x ∨ y ∈ l := by
  induction l with
  | nil => simp [insertRanked]
  | cons z zs ih =>
    by_cases h : x.2 ≤ z.2
    · simp only [insertRanked, if_pos h, List.mem_cons, ih]
      tauto
    · simp only [insertRanked, if_neg h, List.mem_cons]

theorem insertRanked_perm (x : ℕ × ℚ) (l : List (ℕ × ℚ)) :
    (insertRanked x l).Perm (x :: l) := by
  induction l with
  | nil => exact List.Perm.refl _
  | cons y ys ih =>
    by_cases h : x.2 ≤ y.2
    · rw [insertRanked, if_pos h]
      exact (ih.cons y).trans (List.Perm.swap x y ys)
    · rw [insertRanked, if_neg h]

theorem insertRanked_pairwise (x : ℕ × ℚ) (l : List (ℕ × ℚ))
    (hl : l.Pairwise RankRel) (hidx : ∀ y ∈ l, y.1 < x.1) :
    (insertRanked x l).Pairwise RankRel := by
  induction l with
  | nil => simp [insertRanked, List.pairwise_singleton]
  | cons y ys ih =>
    rcases List.pairwise_cons.1 hl with ⟨hy, hys⟩
    by_cases h : x.2 ≤ y.2
    · rw [insertRanked, if_pos h]
      refine List.pairwise_cons.2 ⟨?_, ih hys fun z hz => hidx z (List.mem_cons_of_mem _ hz)⟩
      intro z hz
      rcases (mem_insertRanked x z ys).1 hz with rfl | hz
      · rcases lt_or_eq_of_le h with h' | h'
        · exact Or.inl h'
        · exact Or.inr ⟨h'.symm, hidx y (List.mem_cons_self y ys)⟩
      · exact hy z hz
    · push_neg at h
      rw [insertRanked, if_neg (not_le.2 h)]
      refine List.pairwise_cons.2 ⟨?_, hl⟩
      intro z hz
      rcases List.mem_cons.1 hz with rfl | hz
      · exact Or.inl h
      · refine Or.inl (lt_of_le_of_lt ?_ h)
        rcases hy z hz with h' | h'
        · exact le_of_lt h'
        · exact le_of_eq h'.1.symm

theorem foldl_insertRanked_pairwise (l : List (ℕ × ℚ)) :
    ∀ acc : List (ℕ × ℚ), acc.Pairwise RankRel →
      (∀ y ∈ acc, ∀ x ∈ l, y.1 < x.1) →
      l.Pairwise (fun a b => a.1 < b.1) →
      (l.foldl (fun a x => insertRanked x a) acc).Pairwise RankRel := by
  induction l with
  | nil => intro acc hacc _ _; simpa using hacc
  | cons x l ih =>
    intro acc hacc hcross hl
    rcases List.pairwise_cons.1 hl with ⟨hx, hl'⟩
    refine ih (insertRanked x acc) ?_ ?_ hl'
    · exact insertRanked_pairwise x acc hacc fun y hy => hcross y hy x (List.mem_cons_self x l)
    · intro y hy z hz
      rcases (mem_insertRanked x y acc).1 hy with rfl | hy
      · exact hx z hz
      · exact hcross y hy z (List.mem_cons_of_mem _ hz)

theorem foldl_insertRanked_perm (l : List (ℕ × ℚ)) :
    ∀ acc : List (ℕ × ℚ), (l.foldl (fun a x => insertRanked x a) acc).Perm (acc ++ l) := by
  induction l with
  | nil => intro acc; simp
  | cons x l ih =>
    intro acc
    refine ((ih (insertRanked x acc)).trans ?_)
    refine (((insertRanked_perm x acc).append_right l).trans ?_)
    exact List.perm_middle.symm

theorem pySortDesc_pairwise (l : List (ℕ × ℚ)) (hl : l.Pairwise fun a b => a.1 < b.1) :
    (pySortDesc l).Pairwise RankRel :=
  foldl_insertRanked_pairwise l [] (List.Pairwise.nil) (by simp) hl

theorem pySortDesc_perm (l : List (ℕ × ℚ)) : (pySortDesc l).Perm l := by
  simpa using foldl_insertRanked_perm l []

theorem calcScores_pairwise (n : ℕ) (scores : ℕ → ℚ) :
    (calcScores n scores).Pairwise RankRel := by
  refine pySortDesc_pairwise _ (List.pairwise_map.2 ?_)
  exact List.pairwise_lt_range n

/-! ### Helper lemmas about slicing, ranking and selection -/

theorem filterMap_getElem_range {α : Type} (l : List α) :
    (List.range l.length).filterMap (fun i => l[i]?) = l := by
  induction l with
  | nil => rfl
  | cons a l ih =>
    rw [List.length_cons, List.range_succ_eq_map]
    simp only [List.filterMap_cons, List.getElem?_cons_zero, List.filterMap_map]
    have h : ((fun i => (a :: l)[i]?) ∘ Nat.succ) = fun i => l[i]? := by
      funext i
      simp
    rw [h, ih]

theorem rankedRows_perm (r : TfidfRetriever) (scores : ℕ → ℚ) :
    (rankedRows r scores).Perm r.df := by
  unfold rankedRows calcScores
  refine ((pySortDesc_perm _).filterMap _).trans ?_
  rw [List.filterMap_map]
  have h : ((fun p : ℕ × ℚ => r.df[p.1]?) ∘ fun i => (i, scores i)) = fun i => r.df[i]? := rfl
  rw [h, filterMap_getElem_range]

theorem mem_rankedRows (r : TfidfRetriever) (scores : ℕ → ℚ) (row : Row)
    (h : row ∈ rankedRows r scores) : row ∈ r.df := by
  rcases List.mem_filterMap.1 h with ⟨p, _, hp⟩
  exact List.getElem?_mem hp

theorem pySlice_sublist (k : ℤ) {α : Type} (l : List α) :
    List.Sublist (pySlice k l) l := List.take_sublist _ _

theorem mem_pySlice (k : ℤ) {α : Type} {l : List α} {a : α}
    (h : a ∈ pySlice k l) : a ∈ l := (pySlice_sublist k l).mem h

theorem pySlice_length_le (k : ℤ) (hk : 0 ≤ k) {α : Type} (l : List α) :
    ((pySlice k l).length : ℤ) ≤ k := by
  unfold pySlice
  rw [if_pos hk]
  have h := List.length_take_le k.toNat l
  omega

theorem selectedRows_eq_of_cand_ne (r : TfidfRetriever) (scores : ℕ → ℚ)
    (cand : List ℕ) (topK : ℤ) (hc : cand ≠ []) :
    selectedRows r scores cand topK
      = pySlice topK ((rankedRows r scores).filter fun row => cand.contains row.document_id) := by
  simp only [selectedRows]
  rw [if_neg (by simpa using hc)]

/-! ### Helper lemmas about fit and construction -/

theorem fitRows_map_pid (ps : List Paragraph) :
    (fitRows ps).map Row.paragraph_id = ps.map Paragraph.paragraph_id := by
  simp [fitRows]

theorem fitRows_map_text (ps : List Paragraph) :
    (fitRows ps).map Row.text = ps.map fun p => pyJoin " " p.text := by
  simp [fitRows]

theorem pyJoin_single_comp : (pyJoin " " ∘ fun u : String => [u]) = id := by
  funext u
  rfl

theorem fitRows_length (ps : List Paragraph) : (fitRows ps).length = ps.length := by
  simp [fitRows]

theorem fit_ok_eq (ps : List Paragraph) (rows : List Row) (h : fit ps = .ok rows) :
    rows = fitRows ps := by
  simp only [fit] at h
  split at h
  · cases h
  · split at h
    · cases h
    · injection h with h
      exact h.symm

theorem construct_ok (docs : List Document) (r : TfidfRetriever)
    (h : construct docs = .ok r) :
    r.paragraphs = getAllParagraphs docs ∧ fit (getAllParagraphs docs) = .ok r.df := by
  simp only [construct] at h
  cases hf : fit (getAllParagraphs docs) with
  | error e => rw [hf] at h; cases h
  | ok rows =>
    rw [hf] at h
    simp only [Except.map] at h
    injection h with h
    subst h
    exact ⟨rfl, rfl⟩

theorem construct_df (docs : List Document) (r : TfidfRetriever)
    (h : construct docs = .ok r) :
    r.df = fitRows (getAllParagraphs docs) :=
  fit_ok_eq _ _ (construct_ok docs r h).2

theorem df_map_pid (docs : List Document) (r : TfidfRetriever)
    (h : construct docs = .ok r) :
    r.df.map Row.paragraph_id = List.range r.df.length := by
  rw [construct_df docs r h, fitRows_map_pid, fitRows_length, getAllParagraphs,
    getAllParagraphsAux_map_pid, List.range_eq_range']

theorem df_pid_at (docs : List Document) (r : TfidfRetriever)
    (h : construct docs = .ok r) (i : ℕ) (row : Row) (hrow : r.df[i]? = some row) :
    row.paragraph_id = i := by
  have hi : i < r.df.length := by
    rcases List.getElem?_eq_some.1 hrow with ⟨hi, _⟩
    exact hi
  have h1 : (r.df.map Row.paragraph_id)[i]? = some row.paragraph_id := by
    rw [List.getElem?_map, hrow]
    rfl
  rw [df_map_pid docs r h] at h1
  rw [List.getElem?_range hi] at h1
  injection h1 with h1
  exact h1.symm

theorem mem_selectedRows_df (r : TfidfRetriever) (scores : ℕ → ℚ) (cand : List ℕ)
    (topK : ℤ) (row : Row) (h : row ∈ selectedRows r scores cand topK) :
    row ∈ r.df := by
  simp only [selectedRows] at h
  have h1 := mem_pySlice topK h
  by_cases hc : cand.isEmpty
  · rw [if_pos hc] at h1
    exact mem_rankedRows r scores row h1
  · rw [if_neg hc] at h1
    exact mem_rankedRows r scores row (List.mem_of_mem_filter h1)

/-! ### Claim theorems -/

/-- Claim C7: the paragraph_id values assigned during segmentation form a
zero-based, strictly increasing, gap-free and repeat-free sequence across the
whole corpus, one id per emitted paragraph in document-iteration order: the id
sequence is exactly `range` of the paragraph count. -/
theorem paragraph_ids_sequential (docs : List Document) :
    (getAllParagraphs docs).map Paragraph.paragraph_id
        = List.range (getAllParagraphs docs).length
    ∧ ((getAllParagraphs docs).map Paragraph.paragraph_id).Pairwise (· < ·) := by
  have h : (getAllParagraphs docs).map Paragraph.paragraph_id
      = List.range (getAllParagraphs docs).length := by
    rw [getAllParagraphs, getAllParagraphsAux_map_pid, List.range_eq_range']
  refine ⟨h, ?_⟩
  rw [h]
  exact List.pairwise_lt_range _

/-- Claim C5, counterexample: the claim says segmentation of
`"A\n\nB\n\n\nC"` yields the trimmed units `["A","B","C"]`; the code splits
on the exact two-character separator `"\n\n"` and does not trim, so the third
emitted unit is `"\nC"`, not `"C"`. -/
theorem segmentation_claim_cex :
    (getAllParagraphs [⟨0, "A\n\nB\n\n\nC"⟩]).map (fun p => pyJoin " " p.text)
        = ["A", "B", "\nC"]
    ∧ (getAllParagraphs [⟨0, "A\n\nB\n\n\nC"⟩]).map (fun p => pyJoin " " p.text)
        ≠ ["A", "B", "C"] := by
  constructor
  · decide
  · decide

/-- Claim C5, amended: segmentation splits each document's text on the exact
separator `"\n\n"` (a run of three newlines leaves a leading newline on the
following unit), discards units that are empty after trimming, and emits the
surviving units untrimmed; `"A\n\nB\n\n\nC"` yields `["A","B","\nC"]`, and a
whitespace-only document yields zero paragraphs. -/
theorem segmentation_amended (d : Document) :
    (getAllParagraphs [d]).map (fun p => pyJoin " " p.text)
        = (pySplit "\n\n" d.text).filter (fun u => pyStrip u != "")
    ∧ (getAllParagraphs [⟨0, "A\n\nB\n\n\nC"⟩]).map (fun p => pyJoin " " p.text)
        = ["A", "B", "\nC"]
    ∧ getAllParagraphs [⟨0, " \n \n \t"⟩] = [] := by
  refine ⟨?_, by decide, by decide⟩
  have h1 : (getAllParagraphs [d]).map (fun p => pyJoin " " p.text)
      = ((getAllParagraphs [d]).map Paragraph.text).map (pyJoin " ") := by
    rw [List.map_map]
    rfl
  rw [h1, getAllParagraphs, getAllParagraphsAux_map_text, List.map_map,
    pyJoin_single_comp, List.map_id]
  simp [segmentDoc]

/-- Claim C9: the verbose flag affects only the diagnostic log, never the
returned (passages, metadata) pair: the first component of `retrieve` is
syntactically independent of it. -/
theorem verbose_no_effect (r : TfidfRetriever) (scores : ℕ → ℚ) (cand : List ℕ)
    (topK : ℤ) :
    (retrieve r scores cand topK true).1 = (retrieve r scores cand topK false).1 := rfl

/-- Claim C4, counterexample: the claim says `retrieve(query, top_k=0)` raises
`InvalidArgumentError`; the code performs no validation of `top_k` and the
slice `df_sliced[:0]` simply yields an empty selection, so retrieve on a
freshly built retriever with `top_k = 0` returns the empty result instead of
raising. -/
theorem topk_zero_claim_cex :
    (construct docsOne).map (fun r => (retrieve r (fun _ => 0) [] 0 true).1)
      = .ok ([], []) := rfl

/-- Claim C4, amended: `retrieve` does not validate `top_k`; with
`top_k = 0` it returns the empty passages/metadata pair (no error of any
kind is raised). -/
theorem topk_zero_returns_empty (r : TfidfRetriever) (scores : ℕ → ℚ)
    (cand : List ℕ) (v : Bool) :
    (retrieve r scores cand 0 v).1 = ([], []) := by
  have hsel : selectedRows r scores cand 0 = [] := by
    simp [selectedRows, pySlice]
  simp [retrieve, hsel]

/-- Claim C1: with a non-empty candidate set and positive top_k, `retrieve`
ranks all paragraphs (the ranked rows are a permutation of the whole
dataframe), then filters by candidate document id without re-sorting, then
truncates to the first top_k survivors; consequently the result has at most
top_k entries, every returned metadata document_id lies in the candidate set,
and the selection is a sublist (order-preserving subsequence) of the
unfiltered ranking. -/
theorem retrieve_rank_filter_truncate (r : TfidfRetriever) (scores : ℕ → ℚ)
    (cand : List ℕ) (topK : ℤ) (v : Bool) (hc : cand ≠ []) (hk : 0 < topK) :
    (retrieve r scores cand topK v).1.1
        = (pySlice topK ((rankedRows r scores).filter
            fun row => cand.contains row.document_id)).map Row.text
    ∧ (retrieve r scores cand topK v).1.2
        = (pySlice topK ((rankedRows r scores).filter
            fun row => cand.contains row.document_id)).map
            (fun row => RetMeta.mk row.document_id row.paragraph_id)
    ∧ (rankedRows r scores).Perm r.df
    ∧ ((retrieve r scores cand topK v).1.1.length : ℤ) ≤ topK
    ∧ ((retrieve r scores cand topK v).1.2.length : ℤ) ≤ topK
    ∧ (∀ m ∈ (retrieve r scores cand topK v).1.2, m.document_id ∈ cand)
    ∧ List.Sublist (selectedRows r scores cand topK) (rankedRows r scores) := by
  have hkey := selectedRows_eq_of_cand_ne r scores cand topK hc
  have hfst : (retrieve r scores cand topK v).1.1
      = (selectedRows r scores cand topK).map Row.text := rfl
  have hsnd : (retrieve r scores cand topK v).1.2
      = (selectedRows r scores cand topK).map
          (fun row => RetMeta.mk row.document_id row.paragraph_id) := rfl
  refine ⟨by rw [hfst, hkey], by rw [hsnd, hkey], rankedRows_perm r scores, ?_, ?_, ?_, ?_⟩
  · rw [hfst, List.length_map, hkey]
    exact pySlice_length_le topK (le_of_lt hk) _
  · rw [hsnd, List.length_map, hkey]
    exact pySlice_length_le topK (le_of_lt hk) _
  · intro m hm
    rw [hsnd] at hm
    rcases List.mem_map.1 hm with ⟨row, hrow, rfl⟩
    rw [hkey] at hrow
    have h2 := List.of_mem_filter (mem_pySlice topK hrow)
    simpa [List.contains] using h2
  · rw [hkey]
    exact (pySlice_sublist topK _).trans (List.filter_sublist _)

/-- Claim C1, witness at a concrete fitted retriever. -/
theorem retrieve_rank_filter_truncate_witness :
    (([0] : List ℕ) ≠ []) ∧ ((0 : ℤ) < 5)
    ∧ (∀ m ∈ (retrieve retrOne (fun _ => 0) [0] 5 true).1.2, m.document_id ∈ [0])
    ∧ ((retrieve retrOne (fun _ => 0) [0] 5 true).1.1.length : ℤ) ≤ 5 :=
  ⟨by decide, by decide,
    (retrieve_rank_filter_truncate retrOne (fun _ => 0) [0] 5 true (by decide)
      (by decide)).2.2.2.2.2.1,
    (retrieve_rank_filter_truncate retrOne (fun _ => 0) [0] 5 true (by decide)
      (by decide)).2.2.2.1⟩

/-- Claim C8: the ranking produced by `_calc_scores` is ordered by score
descending with ties broken by ascending index (Python's sort is stable and
the enumeration order is the index order); for a constructed retriever the
dataframe row at position i carries paragraph_id i; and therefore the ranked
row sequence itself is score-descending with every tie ranking the row with
the strictly smaller paragraph_id first. -/
theorem ranking_desc_stable (docs : List Document) (r : TfidfRetriever)
    (h : construct docs = .ok r) (scores : ℕ → ℚ) :
    (calcScores r.df.length scores).Pairwise RankRel
    ∧ (∀ (i : ℕ) (row : Row), r.df[i]? = some row → row.paragraph_id = i)
    ∧ (rankedWithScores r scores).Pairwise
        (fun a b => b.2 < a.2 ∨ (a.2 = b.2 ∧ a.1.paragraph_id < b.1.paragraph_id)) := by
  have hpid : ∀ (i : ℕ) (row : Row), r.df[i]? = some row → row.paragraph_id = i :=
    fun i row hrow => df_pid_at docs r h i row hrow
  refine ⟨calcScores_pairwise _ _, hpid, ?_⟩
  refine List.Pairwise.filterMap _ ?_ (calcScores_pairwise r.df.length scores)
  intro p q hpq x hx y hy
  rw [Option.mem_def] at hx hy
  rcases Option.map_eq_some'.1 hx with ⟨rp, hrp, rfl⟩
  rcases Option.map_eq_some'.1 hy with ⟨rq, hrq, rfl⟩
  rcases hpq with h1 | ⟨h1, h2⟩
  · exact Or.inl h1
  · refine Or.inr ⟨h1, ?_⟩
    rw [hpid p.1 rp hrp, hpid q.1 rq hrq]
    exact h2

/-- Claim C8, witness at a concrete constructed retriever. -/
theorem ranking_desc_stable_witness :
    (calcScores retrOne.df.length (fun _ => 0)).Pairwise RankRel
    ∧ (Row.mk 0 0 "hello world").paragraph_id = 0
    ∧ (rankedWithScores retrOne (fun _ => 0)).Pairwise
        (fun a b => b.2 < a.2 ∨ (a.2 = b.2 ∧ a.1.paragraph_id < b.1.paragraph_id)) :=
  ⟨(ranking_desc_stable docsOne retrOne rfl (fun _ => 0)).1,
    (ranking_desc_stable docsOne retrOne rfl (fun _ => 0)).2.1 0 ⟨0, 0, "hello world"⟩ rfl,
    (ranking_desc_stable docsOne retrOne rfl (fun _ => 0)).2.2⟩

/-- Claim C2, counterexample: the claim says a zero-paragraph corpus lets the
index build and retrieve succeed with an empty result; in the code the empty
paragraph list produces a dataframe with no columns, so `fit` (called from the
constructor) raises `KeyError("text")` and no retriever is built. -/
theorem empty_corpus_claim_cex :
    construct [] = .error (PyError.keyError "text")
    ∧ fit [] = .error (PyError.keyError "text") := ⟨rfl, rfl⟩

/-- Claim C2, amended: a zero-paragraph corpus makes the build fail with
`KeyError("text")` (so retrieve is unreachable); a candidate filter that
excludes every paragraph of a fitted retriever yields the empty
passages/metadata result without raising. -/
theorem empty_corpus_amended (docs : List Document) (h : getAllParagraphs docs = [])
    (r : TfidfRetriever) (scores : ℕ → ℚ) (cand : List ℕ) (hc : cand ≠ [])
    (hex : ∀ row ∈ r.df, cand.contains row.document_id = false) (topK : ℤ) (v : Bool) :
    construct docs = .error (PyError.keyError "text")
    ∧ (retrieve r scores cand topK v).1 = ([], []) := by
  constructor
  · simp [construct, h, fit, Except.map]
  · have hfil : (rankedRows r scores).filter
        (fun row => cand.contains row.document_id) = [] :=
      List.filter_eq_nil_iff.2 fun row hrow => by
        rw [hex row (mem_rankedRows r scores row hrow)]
        simp
    have hsel : selectedRows r scores cand topK = [] := by
      rw [selectedRows_eq_of_cand_ne r scores cand topK hc, hfil]
      simp [pySlice]
    simp [retrieve, hsel]

/-- Claim C2, witness: empty document table for the error half, and a fitted
retriever with a disjoint candidate set for the empty-result half. -/
theorem empty_corpus_amended_witness :
    construct ([] : List Document) = .error (PyError.keyError "text")
    ∧ (retrieve retrOne (fun _ => 0) [7] 5 true).1 = ([], []) :=
  empty_corpus_amended [] (by decide) retrOne (fun _ => 0) [7] (by decide)
    (by decide) 5 true

/-- Claim C3, counterexample: the claim says `fit()` re-derives paragraphs from
the current Document Source state; in the code `fit` reads only
`self.paragraphs`, captured once in `__init__`, so after the document table
changes from `docsOne` to `docsTwo` a renewed `fit` still reflects the old
text `"hello world"` and not the rederivation `"goodbye moon"`. -/
theorem refit_stale_cex :
    ((construct docsOne).bind TfidfRetriever.refit).map (fun r => r.df.map Row.text)
        = .ok ["hello world"]
    ∧ (fitRows (getAllParagraphs docsTwo)).map Row.text = ["goodbye moon"]
    ∧ ("hello world" : String) ≠ "goodbye moon" := ⟨rfl, rfl, by decide⟩

/-- Claim C3, amended: `fit()` rebuilds the dataframe and matrix from the
paragraph list captured at construction, not from the current Document Source
state: re-invoking the fit method on a constructed retriever reproduces the
identical fitted state, whatever happened to the document collection since. -/
theorem refit_uses_captured_paragraphs (docs : List Document) (r : TfidfRetriever)
    (h : construct docs = .ok r) :
    TfidfRetriever.refit r = .ok r ∧ r.paragraphs = getAllParagraphs docs := by
  obtain ⟨hp, hf⟩ := construct_ok docs r h
  have hf2 : fit r.paragraphs = .ok r.df := by
    rw [hp]
    exact hf
  refine ⟨?_, hp⟩
  simp only [TfidfRetriever.refit, hf2]
  rfl

/-- Claim C3, witness at a concrete constructed retriever. -/
theorem refit_uses_captured_paragraphs_witness :
    TfidfRetriever.refit retrOne = .ok retrOne
    ∧ retrOne.paragraphs = getAllParagraphs docsOne :=
  refit_uses_captured_paragraphs docsOne retrOne rfl

/-- Claim C6, counterexample: the claim says retrieve on a freshly
constructed, never-fitted model raises `ModelNotFittedError`; in the code the
constructor itself fits the model, so retrieve on a freshly constructed
instance returns a normal result and no unfitted state is reachable. -/
theorem fresh_instance_retrieve_cex :
    (construct docsOne).map (fun r => (retrieve r (fun _ => 0) [] 10 true).1)
        = .ok (["hello world"], [⟨0, 0⟩]) := rfl

/-- Claim C6, amended: `__init__` derives the paragraphs and calls `fit`
before returning, so every successfully constructed retriever is already
fitted (its state is exactly the fitted dataframe of its captured paragraphs)
and retrieve on it returns the selected passages and metadata rather than
raising a not-fitted error. -/
theorem constructor_already_fits (docs : List Document) (r : TfidfRetriever)
    (h : construct docs = .ok r) :
    r.paragraphs = getAllParagraphs docs
    ∧ fit r.paragraphs = .ok r.df
    ∧ ∀ scores cand topK v, (retrieve r scores cand topK v).1
        = ((selectedRows r scores cand topK).map Row.text,
           (selectedRows r scores cand topK).map
             fun row => RetMeta.mk row.document_id row.paragraph_id) := by
  obtain ⟨hp, hf⟩ := construct_ok docs r h
  exact ⟨hp, by rw [hp]; exact hf, fun _ _ _ _ => rfl⟩

/-- Claim C6, witness at a concrete constructed retriever. -/
theorem constructor_already_fits_witness :
    retrOne.paragraphs = getAllParagraphs docsOne
    ∧ fit retrOne.paragraphs = .ok retrOne.df
    ∧ (retrieve retrOne (fun _ => 0) [] 10 true).1
        = ((selectedRows retrOne (fun _ => 0) [] 10).map Row.text,
           (selectedRows retrOne (fun _ => 0) [] 10).map
             fun row => RetMeta.mk row.document_id row.paragraph_id) :=
  ⟨(constructor_already_fits docsOne retrOne rfl).1,
    (constructor_already_fits docsOne retrOne rfl).2.1,
    (constructor_already_fits docsOne retrOne rfl).2.2 (fun _ => 0) [] 10 true⟩

/-- Claim C10: every paragraph stores its text as a one-element tuple, the
single-space join applied at fit time is the identity on such tuples, so the
dataframe text column is exactly the raw (untrimmed) split units of the
documents, and every passage returned by retrieve is one of those stored
texts — the original substring round-trips unchanged. -/
theorem passages_roundtrip (docs : List Document) (r : TfidfRetriever)
    (h : construct docs = .ok r) (scores : ℕ → ℚ) (cand : List ℕ) (topK : ℤ)
    (v : Bool) :
    (∀ p ∈ r.paragraphs, ∃ u, p.text = [u] ∧ pyJoin " " p.text = u)
    ∧ r.df.map Row.text
        = (docs.map fun d => (pySplit "\n\n" d.text).filter fun u => pyStrip u != "").flatten
    ∧ ∀ t ∈ (retrieve r scores cand topK v).1.1, t ∈ r.df.map Row.text := by
  obtain ⟨hp, _⟩ := construct_ok docs r h
  have htext : (getAllParagraphs docs).map Paragraph.text
      = ((docs.map segmentDoc).flatten).map fun u => [u] := by
    rw [getAllParagraphs, getAllParagraphsAux_map_text]
  refine ⟨?_, ?_, ?_⟩
  · intro p hmem
    have : p.text ∈ (getAllParagraphs docs).map Paragraph.text := by
      rw [← hp]
      exact List.mem_map_of_mem Paragraph.text hmem
    rw [htext] at this
    rcases List.mem_map.1 this with ⟨u, _, hu⟩
    refine ⟨u, hu.symm, ?_⟩
    rw [← hu]
    rfl
  · rw [construct_df docs r h, fitRows_map_text]
    have h2 : (getAllParagraphs docs).map (fun p => pyJoin " " p.text)
        = ((getAllParagraphs docs).map Paragraph.text).map (pyJoin " ") := by
      rw [List.map_map]
      rfl
    rw [h2, htext, List.map_map, pyJoin_single_comp, List.map_id]
    rfl
  · intro t ht
    rcases List.mem_map.1 ht with ⟨row, hrow, rfl⟩
    exact List.mem_map_of_mem Row.text (mem_selectedRows_df r scores cand topK row hrow)

/-- Claim C10, witness at a concrete constructed retriever. -/
theorem passages_roundtrip_witness :
    (∃ u, (Paragraph.mk 0 0 ["hello world"]).text = [u]
        ∧ pyJoin " " (Paragraph.mk 0 0 ["hello world"]).text = u)
    ∧ retrOne.df.map Row.text
        = (docsOne.map fun d => (pySplit "\n\n" d.text).filter fun u => pyStrip u != "").flatten
    ∧ ("hello world" ∈ retrOne.df.map Row.text) :=
  ⟨(passages_roundtrip docsOne retrOne rfl (fun _ => 0) [] 10 true).1
      ⟨0, 0, ["hello world"]⟩ (by decide),
    (passages_roundtrip docsOne retrOne rfl (fun _ => 0) [] 10 true).2.1,
    (passages_roundtrip docsOne retrOne rfl (fun _ => 0) [] 10 true).2.2
      "hello world" (by decide)⟩

end Haystack
